import Mathlib

/-!
Shallow embedding of `src/sync_sales_twb.py`, a git-driven one-file sync tool.

The script propagates the latest edit of `Live/Sales.twbx` onto
`Live/Customers/Sales.twbx`.  Its behaviour is a pure function of the
responses of its external collaborators (git subprocesses, the filesystem,
the zip library), so we model one invocation as a function of an
environment record holding those responses, and of the current destination
content.  Machinery that the script treats as a black box (the git binary,
zip compression) appears as record fields / oracle functions; every
branching decision of the script itself is translated from the source.

Text handled character-wise (diff output, archive member names) is modelled
as `List Char`; opaque payload text (file bytes, document lines) is
modelled as `String` values.
-/

/-- Diff text and path text, as a list of characters (Python `str` used
character-wise). -/
abbrev Text := List Char

/-- Model of Python `str.isspace` characters removed by `str.strip()`
(ASCII whitespace). -/
def isPySpace (c : Char) : Bool :=
  c = ' ' || c = '\t' || c = '\n' || c = '\r' || c = '\x0b' || c = '\x0c'

/-- Model of Python `str.strip()`: drop leading and trailing whitespace. -/
def pyStrip (s : Text) : Text :=
  ((s.dropWhile isPySpace).reverse.dropWhile isPySpace).reverse

/-- Model of Python truthiness test `not result.stdout.strip()`: the string
is empty after stripping. -/
def isBlank (s : Text) : Bool :=
  (pyStrip s).isEmpty

/-- Model of Python substring membership `needle in hay`. -/
def containsSub (hay needle : Text) : Bool :=
  hay.tails.any (fun t => needle.isPrefixOf t)

/-- Model of Python `str.lower()` on one ASCII character. -/
def asciiLower (c : Char) : Char :=
  if 65 ≤ c.toNat && c.toNat ≤ 90 then Char.ofNat (c.toNat + 32) else c

/-- Model of Python `str.lower()` (ASCII). -/
def lowerText (s : Text) : Text :=
  s.map asciiLower

/-- Literal checked first at line 108 of the source:
`"Binary files differ" in diff_output`. -/
def binaryDifferLiteral : Text :=
  "Binary files differ".data

/-- Start of the marker line git emits for a binary diff
(`Binary files a/x and b/y differ`); a diff "reported as binary" by the
diff provider is one containing this marker. -/
def gitBinaryMarker : Text :=
  "Binary files ".data

/-- Line 108 of the source: the binary-file test applied to the stripped
diff output. -/
def isBinaryDiff (diff_output : Text) : Bool :=
  containsSub diff_output binaryDifferLiteral ||
    containsSub (lowerText diff_output) "binary".data

/-- Responses of the external collaborators consumed by one invocation of
`sync_sales_twb` (source lines 23-174).  Each diff field is the stdout of
the corresponding `git` call; `mergeBaseMainOk` / `mergeBaseMasterOk` state
that `git merge-base` returned status 0 with non-blank stdout;
`strictApply` / `threeWayApply` are `some c` when the corresponding
`git apply` run succeeds leaving the destination file with content `c`, and
`none` when it exits non-zero. -/
structure GitEnv where
  sourceExists : Bool
  mkdirRaises : Bool
  inGitRepo : Bool
  diffCached : Text
  diffHeadPrev : Text
  mergeBaseMainOk : Bool
  diffMergeMain : Text
  mergeBaseMasterOk : Bool
  diffMergeMaster : Text
  sourceBytes : String
  strictApply : Option String
  threeWayApply : Option String

/-- Source lines 47-105: successive revision ranges are tried until one
produces non-blank stdout, and the final choice is stripped.  When the
`origin/main` merge-base is unavailable the `origin/master` one is tried;
when neither is available the (blank) previous result is kept. -/
def getDiff (env : GitEnv) : Text :=
  let r1 := env.diffCached
  let r2 := if isBlank r1 then env.diffHeadPrev else r1
  let r3 :=
    if isBlank r2 then
      if env.mergeBaseMainOk then env.diffMergeMain
      else if env.mergeBaseMasterOk then env.diffMergeMaster
      else r2
    else r2
  pyStrip r3

/-- Terminal statuses of the text-variant orchestrator, one per print/exit
site of `sync_sales_twb` (the archive variant is modelled separately and
entered through `routedTwbx`). -/
inductive TextOutcome
  | fatalNoSource
  | fatalNotGit
  | routedTwbx
  | noChanges
  | created
  | appliedStrict
  | applied3way
  | applyFailed
  deriving DecidableEq

/-- Process exit code of each text-variant outcome (`none` for the archive
route, whose exit code is produced by `apply_twbx_changes`). -/
def textExitCode : TextOutcome → Option Nat
  | .fatalNoSource => some 1
  | .fatalNotGit => some 1
  | .routedTwbx => none
  | .noChanges => some 0
  | .created => some 0
  | .appliedStrict => some 0
  | .applied3way => some 0
  | .applyFailed => some 1

/-- Exceptions that can escape `sync_sales_twb` uncaught.  The
`dest_file.parent.mkdir(...)` call at line 29 runs before any
`try` block, so a filesystem error there propagates out of the script. -/
inductive PyExc
  | mkdirError
  deriving DecidableEq

/-- Source line 146: the strict apply command, rooted at the repository
root with `--directory` set to the destination's containing directory. -/
def strictApplyArgs (destDir patchPath : String) : List String :=
  ["git", "apply", "--ignore-whitespace", "--directory", destDir, patchPath]

/-- Source line 197: the retry command used by `apply_changes_manually`,
run from the repository root with no `--directory` option. -/
def threeWayApplyArgs (patchPath : String) : List String :=
  ["git", "apply", "--3way", "--ignore-whitespace", patchPath]

/-- Source lines 176-221 (`apply_changes_manually`): retry with
`git apply --3way --ignore-whitespace` at the repository root; return 0 on
success and 1 (manual intervention) on failure, leaving the destination
as it is. -/
def apply_changes_manually (env : GitEnv) (old : String) : TextOutcome × Option String :=
  match env.threeWayApply with
  | some c => (.applied3way, some c)
  | none => (.applyFailed, some old)

/-- Source lines 14-174 (`sync_sales_twb`): the text-variant orchestrator.
The second argument is the destination file's current content (`none` when
the file does not exist); the result pairs the terminal outcome with the
destination content after the run.  A `.error` result models an exception
escaping the function uncaught. -/
def sync_sales_twb (env : GitEnv) (dest : Option String) :
    Except PyExc (TextOutcome × Option String) :=
  if env.sourceExists = false then .ok (.fatalNoSource, dest)
  else if env.mkdirRaises = true then .error .mkdirError
  else if env.inGitRepo = false then .ok (.fatalNotGit, dest)
  else
    let diff_output := getDiff env
    if isBinaryDiff diff_output then .ok (.routedTwbx, dest)
    else if diff_output.isEmpty then .ok (.noChanges, dest)
    else
      match dest with
      | none => .ok (.created, some env.sourceBytes)
      | some old =>
        match env.strictApply with
        | some c => .ok (.appliedStrict, some c)
        | none => .ok (apply_changes_manually env old)

/-- Two consecutive invocations against an unchanged environment, chaining
the destination content of the first run into the second. -/
def sync_sales_twb_twice (env : GitEnv) (dest : Option String) :
    Except PyExc ((TextOutcome × TextOutcome) × Option String) :=
  match sync_sales_twb env dest with
  | .error e => .error e
  | .ok (r1, d1) =>
    match sync_sales_twb env d1 with
    | .error e => .error e
    | .ok (r2, d2) => .ok ((r1, r2), d2)

section TextLemmas

/-- Boolean substring test agrees with `List.IsInfix`. -/
theorem containsSub_iff (hay needle : Text) :
    containsSub hay needle = true ↔ needle <:+: hay := by
  unfold containsSub
  rw [List.any_eq_true]
  constructor
  · rintro ⟨t, ht, hp⟩
    rw [List.mem_tails] at ht
    exact List.infix_iff_prefix_suffix.mpr
      ⟨t, (List.isPrefixOf_iff_prefix).mp hp, ht⟩
  · intro h
    obtain ⟨t, hpre, hsuf⟩ := List.infix_iff_prefix_suffix.mp h
    exact ⟨t, (List.mem_tails _ _).mpr hsuf, (List.isPrefixOf_iff_prefix).mpr hpre⟩

/-- A diff containing the git binary-file marker passes the source's
binary test: lower-casing maps the marker onto the substring `binary`. -/
theorem isBinaryDiff_of_marker (d : Text)
    (h : containsSub d gitBinaryMarker = true) : isBinaryDiff d = true := by
  unfold isBinaryDiff
  have hinf : gitBinaryMarker <:+: d := (containsSub_iff d gitBinaryMarker).mp h
  have hmap : lowerText gitBinaryMarker <:+: lowerText d := hinf.map asciiLower
  have hlow : lowerText gitBinaryMarker = "binary files ".data := by decide
  have hpre : ("binary".data : Text) <+: "binary files ".data := by decide
  have : ("binary".data : Text) <:+: lowerText d := by
    rw [hlow] at hmap
    exact (hpre.isInfix).trans hmap
  rw [Bool.or_eq_true]
  exact Or.inr ((containsSub_iff _ _).mpr this)

/-- A blank string strips to the empty list. -/
theorem pyStrip_eq_nil_of_blank (s : Text) (h : isBlank s = true) :
    pyStrip s = [] := by
  unfold isBlank at h
  exact List.isEmpty_iff.mp h

end TextLemmas

/-- Source lines 428-473 (`manual_twb_merge`, success path): the last-resort
line-set merge.  `added_lines` is `set(current) - set(prev)`, `removed_lines`
is `set(prev) - set(current)` (Python sets modelled as deduplicated lists in
first-occurrence order; the loops below do not depend on that order); the
destination then loses every occurrence of each removed line and gains, at
the end, each added line not already present.  Generic in the line type,
instantiated at `String` by the archive pipeline. -/
def manual_twb_merge {α : Type} [DecidableEq α]
    (prev_lines current_lines dest_lines : List α) : List α :=
  (current_lines.dedup.filter (fun l => decide (l ∉ prev_lines))).foldl
    (fun acc l => if l ∈ acc then acc else acc ++ [l])
    ((prev_lines.dedup.filter (fun l => decide (l ∉ current_lines))).foldl
      (fun acc l => acc.filter (fun x => decide (x ≠ l))) dest_lines)

section MergeLemmas

variable {α : Type} [DecidableEq α]

/-- Removing, for each listed line, every occurrence from the accumulator is
one filter. -/
theorem foldl_filter_ne (rem : List α) (dest : List α) :
    rem.foldl (fun acc l => acc.filter (fun x => decide (x ≠ l))) dest
      = dest.filter (fun x => decide (x ∉ rem)) := by
  induction rem generalizing dest with
  | nil => simp
  | cons r rs ih =>
    simp only [List.foldl_cons]
    rw [ih]
    rw [List.filter_filter]
    apply List.filter_congr
    intro x _
    by_cases hxr : x = r <;> by_cases hxs : x ∈ rs <;> simp [hxr, hxs]

/-- Appending each listed line unless already present, for a duplicate-free
list of lines, appends exactly the absent ones in order. -/
theorem foldl_append_missing (add : List α) (hnd : add.Nodup) :
    ∀ base : List α,
      add.foldl (fun acc l => if l ∈ acc then acc else acc ++ [l]) base
        = base ++ add.filter (fun l => decide (l ∉ base)) := by
  induction add with
  | nil => intro base; simp
  | cons a rest ih =>
    intro base
    have hnd' : rest.Nodup := hnd.of_cons
    have hna : a ∉ rest := (List.nodup_cons.mp hnd).1
    simp only [List.foldl_cons, List.filter_cons]
    by_cases hab : a ∈ base
    · rw [if_pos hab, ih hnd' base]
      have hd : decide (a ∉ base) = false := by simp [hab]
      rw [hd]
      simp
    · rw [if_neg hab, ih hnd' (base ++ [a])]
      have hd : decide (a ∉ base) = true := by simp [hab]
      rw [hd]
      have hrest : rest.filter (fun l => decide (l ∉ base ++ [a]))
          = rest.filter (fun l => decide (l ∉ base)) := by
        apply List.filter_congr
        intro x hx
        have hxa : x ≠ a := fun h => hna (h ▸ hx)
        simp [List.mem_append, hxa]
      rw [hrest, List.append_assoc]
      rfl

/-- Closed form of the line-set merge: the destination filtered of removed
lines, followed by the added lines that the destination lacks, in
first-occurrence order. -/
theorem manual_twb_merge_eq (prev current dest : List α) :
    manual_twb_merge prev current dest
      = dest.filter (fun x => decide (¬(x ∈ prev ∧ x ∉ current)))
        ++ current.dedup.filter
            (fun l => decide (l ∉ prev) && decide (l ∉ dest)) := by
  unfold manual_twb_merge
  rw [foldl_filter_ne]
  rw [foldl_append_missing _ ((current.nodup_dedup).filter _)]
  have hrm : dest.filter
        (fun x => decide (x ∉ prev.dedup.filter (fun l => decide (l ∉ current))))
      = dest.filter (fun x => decide (¬(x ∈ prev ∧ x ∉ current))) := by
    apply List.filter_congr
    intro x _
    by_cases hp : x ∈ prev <;> by_cases hc : x ∈ current <;>
      simp [List.mem_filter, List.mem_dedup, hp, hc]
  rw [hrm]
  congr 1
  rw [List.filter_filter]
  apply List.filter_congr
  intro l hl
  have hlc : l ∈ current := List.mem_dedup.mp hl
  by_cases hp : l ∈ prev
  · simp [hp]
  · have hmem : l ∈ dest.filter (fun x => decide (¬(x ∈ prev ∧ x ∉ current)))
        ↔ l ∈ dest := by
      rw [List.mem_filter]
      simp [hp, hlc]
    by_cases hd : l ∈ dest <;> simp [hp, hd, hmem]

/-- Merging the current version onto a copy of itself is the identity: no
removed line occurs in it and every added line is already present. -/
theorem manual_twb_merge_self (prev current : List α) :
    manual_twb_merge prev current current = current := by
  rw [manual_twb_merge_eq]
  have h1 : current.filter (fun x => decide (¬(x ∈ prev ∧ x ∉ current)))
      = current := by
    apply List.filter_eq_self.mpr
    intro a ha
    simp [ha]
  have h2 : current.dedup.filter
      (fun l => decide (l ∉ prev) && decide (l ∉ current)) = [] := by
    apply List.filter_eq_nil_iff.mpr
    intro a ha
    have : a ∈ current := List.mem_dedup.mp ha
    simp [this]
  rw [h1, h2, List.append_nil]

end MergeLemmas

/-- One member of an extracted archive tree: its archive-relative path and
its content as document lines. -/
structure Entry where
  path : Text
  content : List String
  deriving DecidableEq

/-- An extracted archive, as the list of its members. -/
abbrev ArcTree := List Entry

/-- Match of the `glob("*.twb")` pattern used at source lines 239, 250, 329:
a member directly inside the extraction directory whose name ends in
`.twb`. -/
def isTwbName (p : Text) : Bool :=
  !(p.contains '/') && ".twb".data.isSuffixOf p

/-- Locate the payload document: `twb_files[0]`, the first `*.twb` match of
the extraction (documented first-match convention). -/
def findTwb (t : ArcTree) : Option Entry :=
  t.find? (fun e => isTwbName e.path)

/-- Write content `c` to the member at path `p` of an extracted tree. -/
def updateTree (t : ArcTree) (p : Text) (c : List String) : ArcTree :=
  t.map (fun e => if e.path = p then ⟨p, c⟩ else e)

/-- Status lines printed by the archive pipeline, one per print site of
`apply_twbx_changes` / `apply_twb_diff` / `manual_twb_merge`. -/
inductive TwbStatus
  | noTwbInSource
  | appliedDiff
  | manualMerged
  | fallbackCopied
  | noTwbChanges
  | updatedTwb
  | alreadyIdentical
  | appliedTwbx
  deriving DecidableEq

/-- Result of one run of the archive pipeline: its return code, the status
lines printed, and the destination container's members afterwards (in the
order they are written into the fresh zip). -/
structure TwbxResult where
  code : Nat
  msgs : List TwbStatus
  dest : Option ArcTree
  deriving DecidableEq

/-- Responses of the external collaborators consumed by
`apply_twbx_changes` (source lines 223-387).  `prevTree` is the extraction
of the source container at the best previous revision the `git show` chain
recovers (`none` when no revision yields bytes forming a valid zip);
`gitApply3 prev current dest` is the content `git apply --ignore-whitespace
--3way` leaves in the destination document when it succeeds on the
rewritten previous-to-current patch, `none` when it exits non-zero;
`mergeRaises` states that `manual_twb_merge` raises (e.g. an encoding
error reading one of the three files), triggering the copy fallback. -/
structure TwbxEnv where
  sourceZipOk : Bool
  sourceTree : ArcTree
  destZipOk : Bool
  prevTree : Option ArcTree
  gitApply3 : List String → List String → List String → Option (List String)
  mergeRaises : Bool

/-- Source lines 389-426 (`apply_twb_diff`) together with lines 428-480
(`manual_twb_merge` with its overwrite fallback): try the three-way git
apply; on failure fall back to the line-set merge; if that raises, copy the
current source document over the destination document.  Every modelled
branch returns 0; the pair gives the resulting destination document content
and the status printed. -/
def apply_twb_diff (env : TwbxEnv) (prev current dest : List String) :
    List String × TwbStatus :=
  match env.gitApply3 prev current dest with
  | some r => (r, .appliedDiff)
  | none =>
    if env.mergeRaises then (current, .fallbackCopied)
    else (manual_twb_merge prev current dest, .manualMerged)

/-- Source lines 263-381, after the destination tree is set up: recover the
previous payload (lines 263-342), diff it against the current payload with
`git diff --no-index` — non-empty exactly when the contents differ — and
patch the destination document (lines 344-362); without a previous version
compare source and destination documents directly (lines 363-371); finally
repackage every member of the (possibly mutated) destination tree into a
fresh container (lines 373-381) and return 0. -/
def twbxCore (env : TwbxEnv) (srcTwb : Entry) (destTree : ArcTree)
    (destTwbPath : Text) (destTwbContent : List String) : TwbxResult :=
  match env.prevTree.bind findTwb with
  | some prevE =>
    if prevE.content ≠ srcTwb.content then
      ⟨0,
        [(apply_twb_diff env prevE.content srcTwb.content destTwbContent).2,
          .appliedTwbx],
        some (updateTree destTree destTwbPath
          (apply_twb_diff env prevE.content srcTwb.content destTwbContent).1)⟩
    else ⟨0, [.noTwbChanges, .appliedTwbx], some destTree⟩
  | none =>
    if srcTwb.content ≠ destTwbContent then
      ⟨0, [.updatedTwb, .appliedTwbx],
        some (updateTree destTree destTwbPath srcTwb.content)⟩
    else ⟨0, [.alreadyIdentical, .appliedTwbx], some destTree⟩

/-- Source lines 223-387 (`apply_twbx_changes`): extract the source
container (corrupt source zip: caught, return 1), locate its payload
document (none: return 1); extract the destination container when the
destination exists (corrupt: caught, return 1), choosing its first payload
document or copying the source one in when it has none (lines 246-256);
when the destination is missing copy the whole extracted source tree as the
initial destination tree (lines 257-260); then run the diff/patch core and
repackage.  The second argument is the destination container's extraction
(`none` when the destination file does not exist). -/
def apply_twbx_changes (env : TwbxEnv) (dest : Option ArcTree) : TwbxResult :=
  if env.sourceZipOk = false then ⟨1, [], dest⟩
  else
    match findTwb env.sourceTree with
    | none => ⟨1, [.noTwbInSource], dest⟩
    | some srcTwb =>
      match dest with
      | some d =>
        if env.destZipOk = false then ⟨1, [], dest⟩
        else
          match findTwb d with
          | some e => twbxCore env srcTwb d e.path e.content
          | none =>
            twbxCore env srcTwb (d ++ [⟨srcTwb.path, srcTwb.content⟩])
              srcTwb.path srcTwb.content
      | none => twbxCore env srcTwb env.sourceTree srcTwb.path srcTwb.content

/-- One filesystem object met by the `rglob('*')` walk at source line 375:
its path relative to the extraction root, whether it is a regular file, and
its content. -/
structure WalkEntry where
  relPath : Text
  isFile : Bool
  content : List String
  deriving DecidableEq

/-- Source lines 374-378: the rewrap step writes into the fresh container
every regular file the directory walk yields, in the walk's order, under
its tree-relative name.  The walk order is whatever `Path.rglob` produces;
the source applies no sorting to it. -/
def rewrap (walk : List WalkEntry) : List (Text × List String) :=
  (walk.filter (fun e => e.isFile)).map (fun e => (e.relPath, e.content))

section TwbxLemmas

/-- Rewriting the found payload member with its own content leaves it the
first payload member. -/
theorem findTwb_updateTree (t : ArcTree) (e : Entry) (h : findTwb t = some e) :
    findTwb (updateTree t e.path e.content) = some e := by
  induction t with
  | nil => simp [findTwb] at h
  | cons a rest ih =>
    by_cases ha : isTwbName a.path = true
    · have ha' : (fun x : Entry => isTwbName x.path) a = true := ha
      have hae : a = e := by
        unfold findTwb at h
        rw [List.find?_cons_of_pos (p := fun x : Entry => isTwbName x.path) _ ha] at h
        exact Option.some.inj h
      subst hae
      unfold findTwb updateTree
      rw [List.map_cons, if_pos rfl]
      exact List.find?_cons_of_pos (p := fun x : Entry => isTwbName x.path) _ ha
    · have ha' : ¬((fun x : Entry => isTwbName x.path) a = true) := ha
      have h' : findTwb rest = some e := by
        unfold findTwb at h ⊢
        rwa [List.find?_cons_of_neg (p := fun x : Entry => isTwbName x.path) _ ha] at h
      have hne : a.path ≠ e.path := by
        intro hp
        apply ha
        have he : (fun x : Entry => isTwbName x.path) e = true :=
          List.find?_some (p := fun x : Entry => isTwbName x.path) h'
        rw [hp]
        exact he
      unfold findTwb updateTree
      rw [List.map_cons, if_neg hne, List.find?_cons_of_neg (p := fun x : Entry => isTwbName x.path) _ ha]
      have hrec := ih h'
      unfold findTwb updateTree at hrec
      exact hrec

end TwbxLemmas

section OrchestratorLemmas

/-- When every revision range yields blank stdout, the provider produces
the empty diff. -/
theorem getDiff_blank (env : GitEnv)
    (h1 : isBlank env.diffCached = true)
    (h2 : isBlank env.diffHeadPrev = true)
    (h3 : env.mergeBaseMainOk = true → isBlank env.diffMergeMain = true)
    (h4 : env.mergeBaseMainOk = false → env.mergeBaseMasterOk = true →
      isBlank env.diffMergeMaster = true) :
    getDiff env = [] := by
  cases hmb : env.mergeBaseMainOk with
  | true => simp [getDiff, h1, h2, hmb, pyStrip_eq_nil_of_blank _ (h3 hmb)]
  | false =>
    cases hms : env.mergeBaseMasterOk with
    | true =>
      simp [getDiff, h1, h2, hmb, hms, pyStrip_eq_nil_of_blank _ (h4 hmb hms)]
    | false => simp [getDiff, h1, h2, hmb, hms, pyStrip_eq_nil_of_blank _ h2]

/-- The empty-diff run reports no changes and leaves the destination
alone. -/
theorem sync_sales_twb_empty_diff (env : GitEnv) (dest : Option String)
    (hsrc : env.sourceExists = true) (hmk : env.mkdirRaises = false)
    (hgit : env.inGitRepo = true) (hd : getDiff env = []) :
    sync_sales_twb env dest = .ok (.noChanges, dest) := by
  have hnb : isBinaryDiff ([] : Text) = false := by decide
  simp [sync_sales_twb, hsrc, hmk, hgit, hnb, hd]

end OrchestratorLemmas

section CoreLemmas

/-- When the destination document already equals the current source
document, every branch of the diff/patch core returns 0 and leaves the tree
as it is, or rewrites the payload member with that same content — provided
a successful `git apply --3way` of the previous-to-current patch onto a
document equal to the current version leaves it unchanged. -/
theorem twbxCore_on_current (env : TwbxEnv) (s : Entry) (t : ArcTree)
    (h8 : ∀ p c, env.gitApply3 p c c = none ∨ env.gitApply3 p c c = some c) :
    (twbxCore env s t s.path s.content).code = 0 ∧
    ((twbxCore env s t s.path s.content).dest = some t ∨
      (twbxCore env s t s.path s.content).dest
        = some (updateTree t s.path s.content)) := by
  unfold twbxCore
  cases hpv : env.prevTree.bind findTwb with
  | none => simp
  | some pe =>
    dsimp only
    by_cases hd : pe.content ≠ s.content
    · rw [if_pos hd]
      unfold apply_twb_diff
      rcases h8 pe.content s.content with hnone | hsome
      · rw [hnone]
        cases hmr : env.mergeRaises with
        | true => simp
        | false => simp [manual_twb_merge_self]
      · rw [hsome]
        simp
    · rw [if_neg hd]
      simp

end CoreLemmas

/-- C1: on a textual non-empty diff with an existing destination, when the
strict apply (whitespace-tolerant, rooted via `--directory` at the
destination's parent) fails, the run retries with the whitespace-tolerant
three-way apply at the repository root (no `--directory`); the strict
failure alone never yields a non-zero exit, and exit code 1 is reported
only once the three-way retry has failed too. -/
theorem c1_strict_failure_escalates (env : GitEnv) (old : String)
    (hsrc : env.sourceExists = true) (hmk : env.mkdirRaises = false)
    (hgit : env.inGitRepo = true)
    (hnb : isBinaryDiff (getDiff env) = false)
    (hne : (getDiff env).isEmpty = false)
    (hstrict : env.strictApply = none) :
    sync_sales_twb env (some old) = .ok (apply_changes_manually env old) ∧
    (∀ c, env.threeWayApply = some c →
      sync_sales_twb env (some old) = .ok (.applied3way, some c) ∧
        textExitCode .applied3way = some 0) ∧
    (∀ r d, sync_sales_twb env (some old) = .ok (r, d) →
      textExitCode r = some 1 →
        env.strictApply = none ∧ env.threeWayApply = none ∧ r = .applyFailed) ∧
    (∀ p, "--3way" ∈ threeWayApplyArgs p ∧
      "--ignore-whitespace" ∈ threeWayApplyArgs p ∧
      (p ≠ "--directory" → "--directory" ∉ threeWayApplyArgs p)) := by
  have hrun : sync_sales_twb env (some old) = .ok (apply_changes_manually env old) := by
    simp [sync_sales_twb, hsrc, hmk, hgit, hnb, hne, hstrict]
  refine ⟨hrun, ?_, ?_, ?_⟩
  · intro c h3
    rw [hrun]
    simp [apply_changes_manually, h3, textExitCode]
  · intro r d hok hexit
    rw [hrun] at hok
    cases h3 : env.threeWayApply with
    | some c =>
      have hacm : apply_changes_manually env old = (.applied3way, some c) := by
        simp [apply_changes_manually, h3]
      rw [hacm] at hok
      have hpair := Except.ok.inj hok
      injection hpair with h1 h2
      rw [← h1] at hexit
      simp [textExitCode] at hexit
    | none =>
      have hacm : apply_changes_manually env old = (.applyFailed, some old) := by
        simp [apply_changes_manually, h3]
      rw [hacm] at hok
      have hpair := Except.ok.inj hok
      injection hpair with h1 h2
      exact ⟨hstrict, rfl, h1.symm⟩
  · intro p
    refine ⟨by simp [threeWayApplyArgs], by simp [threeWayApplyArgs], ?_⟩
    intro hp hmem
    simp only [threeWayApplyArgs, List.mem_cons, List.not_mem_nil, or_false] at hmem
    rcases hmem with h | h | h | h | h
    · exact absurd h (by decide)
    · exact absurd h (by decide)
    · exact absurd h (by decide)
    · exact absurd h (by decide)
    · exact hp h.symm

/-- Environment exercising C1: a textual staged diff, strict apply failing,
three-way apply succeeding. -/
def c1env : GitEnv :=
  { sourceExists := true, mkdirRaises := false, inGitRepo := true
    diffCached := "+new calculated field\n".data, diffHeadPrev := []
    mergeBaseMainOk := false, diffMergeMain := []
    mergeBaseMasterOk := false, diffMergeMaster := []
    sourceBytes := "src", strictApply := none, threeWayApply := some "merged" }

/-- Witness for C1 at a concrete environment. -/
theorem c1_strict_failure_escalates_witness :
    sync_sales_twb c1env (some "old") = .ok (.applied3way, some "merged") ∧
      textExitCode .applied3way = some 0 :=
  (c1_strict_failure_escalates c1env "old" rfl rfl rfl (by decide) (by decide)
    rfl).2.1 "merged" rfl

/-- C3: a diff the provider reports as binary — one carrying git's
`Binary files ... differ` marker — is never handed to the text-patch
pipeline (path rewrite plus `git apply`); the orchestrator routes it to the
archive unwrap/repatch/rewrap path. -/
theorem c3_binary_diff_routes_to_twbx (env : GitEnv) (dest : Option String)
    (hsrc : env.sourceExists = true) (hmk : env.mkdirRaises = false)
    (hgit : env.inGitRepo = true)
    (hbin : containsSub (getDiff env) gitBinaryMarker = true) :
    sync_sales_twb env dest = .ok (.routedTwbx, dest) := by
  have hb := isBinaryDiff_of_marker _ hbin
  simp [sync_sales_twb, hsrc, hmk, hgit, hb]

/-- Environment exercising C3: git reports the container as binary. -/
def c3env : GitEnv :=
  { sourceExists := true, mkdirRaises := false, inGitRepo := true
    diffCached := "Binary files a/x and b/x differ".data, diffHeadPrev := []
    mergeBaseMainOk := false, diffMergeMain := []
    mergeBaseMasterOk := false, diffMergeMaster := []
    sourceBytes := "src", strictApply := none, threeWayApply := none }

/-- Witness for C3 at a concrete environment. -/
theorem c3_binary_diff_routes_to_twbx_witness :
    sync_sales_twb c3env (some "old") = .ok (.routedTwbx, some "old") :=
  c3_binary_diff_routes_to_twbx c3env (some "old") rfl rfl rfl (by decide)

/-- C4: the diff provider tries the revision ranges in a fixed order and
keeps the first non-blank result — staged-vs-working diff, then
previous-commit-to-current diff, then the diff from the merge-base with the
trunk branch (`origin/main` first, `origin/master` when the former's
merge-base is unavailable) to HEAD; when every attempt is blank the run
reports no changes, exits 0 and leaves the destination untouched. -/
theorem c4_diff_attempt_order (env : GitEnv) (dest : Option String) :
    (isBlank env.diffCached = false → getDiff env = pyStrip env.diffCached) ∧
    (isBlank env.diffCached = true → isBlank env.diffHeadPrev = false →
      getDiff env = pyStrip env.diffHeadPrev) ∧
    (isBlank env.diffCached = true → isBlank env.diffHeadPrev = true →
      env.mergeBaseMainOk = true → getDiff env = pyStrip env.diffMergeMain) ∧
    (isBlank env.diffCached = true → isBlank env.diffHeadPrev = true →
      env.mergeBaseMainOk = false → env.mergeBaseMasterOk = true →
      getDiff env = pyStrip env.diffMergeMaster) ∧
    (env.sourceExists = true → env.mkdirRaises = false → env.inGitRepo = true →
      isBlank env.diffCached = true → isBlank env.diffHeadPrev = true →
      (env.mergeBaseMainOk = true → isBlank env.diffMergeMain = true) →
      (env.mergeBaseMainOk = false → env.mergeBaseMasterOk = true →
        isBlank env.diffMergeMaster = true) →
      sync_sales_twb env dest = .ok (.noChanges, dest) ∧
        textExitCode .noChanges = some 0) := by
  refine ⟨?_, ?_, ?_, ?_, ?_⟩
  · intro h1
    simp [getDiff, h1]
  · intro h1 h2
    simp [getDiff, h1, h2]
  · intro h1 h2 h3
    simp [getDiff, h1, h2, h3]
  · intro h1 h2 h3 h4
    simp [getDiff, h1, h2, h3, h4]
  · intro hsrc hmk hgit h1 h2 h3 h4
    exact ⟨sync_sales_twb_empty_diff env dest hsrc hmk hgit
      (getDiff_blank env h1 h2 h3 h4), rfl⟩

/-- Environment exercising C4: all revision ranges blank. -/
def c4env : GitEnv :=
  { sourceExists := true, mkdirRaises := false, inGitRepo := true
    diffCached := "  \n".data, diffHeadPrev := []
    mergeBaseMainOk := true, diffMergeMain := "\n".data
    mergeBaseMasterOk := false, diffMergeMaster := []
    sourceBytes := "src", strictApply := none, threeWayApply := none }

/-- Witness for C4 at a concrete environment. -/
theorem c4_diff_attempt_order_witness :
    sync_sales_twb c4env (some "old") = .ok (.noChanges, some "old") ∧
      textExitCode .noChanges = some 0 :=
  (c4_diff_attempt_order c4env (some "old")).2.2.2.2 rfl rfl rfl (by decide)
    (by decide) (fun _ => by decide) (fun h _ => by rw [c4env] at h; simp at h)

/-- C6: with no intervening source change — every revision range the
provider tries is blank — two consecutive runs both report no changes, both
exit 0, and the destination content is untouched by each run; the archive
pipeline likewise returns 0 and repacks the destination tree unchanged when
the recovered previous payload equals the current one, and when no previous
version exists and the payload already matches. -/
theorem c6_noop_idempotent (env : GitEnv) (dest : Option String)
    (hsrc : env.sourceExists = true) (hmk : env.mkdirRaises = false)
    (hgit : env.inGitRepo = true)
    (h1 : isBlank env.diffCached = true) (h2 : isBlank env.diffHeadPrev = true)
    (h3 : env.mergeBaseMainOk = true → isBlank env.diffMergeMain = true)
    (h4 : env.mergeBaseMainOk = false → env.mergeBaseMasterOk = true →
      isBlank env.diffMergeMaster = true) :
    sync_sales_twb_twice env dest = .ok ((.noChanges, .noChanges), dest) ∧
    sync_sales_twb env dest = .ok (.noChanges, dest) ∧
    textExitCode .noChanges = some 0 ∧
    (∀ (aenv : TwbxEnv) (d pt : ArcTree) (s e pe : Entry),
      aenv.sourceZipOk = true → findTwb aenv.sourceTree = some s →
      aenv.destZipOk = true → findTwb d = some e →
      aenv.prevTree = some pt → findTwb pt = some pe →
      pe.content = s.content →
      apply_twbx_changes aenv (some d)
        = ⟨0, [.noTwbChanges, .appliedTwbx], some d⟩) := by
  have hone : sync_sales_twb env dest = .ok (.noChanges, dest) :=
    sync_sales_twb_empty_diff env dest hsrc hmk hgit
      (getDiff_blank env h1 h2 h3 h4)
  refine ⟨?_, hone, rfl, ?_⟩
  · simp [sync_sales_twb_twice, hone]
  · intro aenv d pt s e pe hz hs hdz hde hp hpe hco
    have hbind : aenv.prevTree.bind findTwb = some pe := by
      rw [hp]
      exact hpe
    simp only [apply_twbx_changes, hz, hs, hdz, hde]
    simp only [Bool.true_eq_false, if_false, if_neg]
    unfold twbxCore
    rw [hbind]
    simp [hco]

/-- Environment exercising C6: blank diffs everywhere. -/
def c6env : GitEnv :=
  { sourceExists := true, mkdirRaises := false, inGitRepo := true
    diffCached := [], diffHeadPrev := " ".data
    mergeBaseMainOk := false, diffMergeMain := []
    mergeBaseMasterOk := false, diffMergeMaster := []
    sourceBytes := "src", strictApply := none, threeWayApply := none }

/-- Witness for C6 at a concrete environment. -/
theorem c6_noop_idempotent_witness :
    sync_sales_twb_twice c6env (some "dest") = .ok ((.noChanges, .noChanges), some "dest") :=
  (c6_noop_idempotent c6env (some "dest") rfl rfl rfl (by decide) (by decide)
    (fun h => by rw [c6env] at h; simp at h) (fun _ _ => by decide)).1

/-- Environment exercising C9's failing input: the source file exists, but
the `mkdir(parents=True, exist_ok=True)` call for the destination's parent
raises (for instance because `Live/Customers` already exists as a regular
file); the call sits at source line 29, before the `try` blocks at lines 32
and 47. -/
def c9env : GitEnv :=
  { sourceExists := true, mkdirRaises := true, inGitRepo := true
    diffCached := [], diffHeadPrev := []
    mergeBaseMainOk := false, diffMergeMain := []
    mergeBaseMasterOk := false, diffMergeMaster := []
    sourceBytes := "src", strictApply := none, threeWayApply := none }

/-- C9 fails on the code: a filesystem error in the destination-directory
`mkdir` at line 29 occurs outside every `try` block, so the run terminates
by an exception escaping `sync_sales_twb` instead of returning exit code 0
or 1 — not every failure path is branched on or caught. -/
theorem c9_unhandled_mkdir_exception :
    sync_sales_twb c9env none = .error .mkdirError ∧
    ∀ r d, sync_sales_twb c9env none ≠ .ok (r, d) := by
  refine ⟨rfl, ?_⟩
  intro r d h
  rw [show sync_sales_twb c9env none = .error .mkdirError from rfl] at h
  exact Except.noConfusion h

/-- Diff text exercising C10: a purely textual diff whose added line
mentions the word BINARY; it does not contain git's binary-diff marker. -/
def c10diff : Text :=
  "+export mode: BINARY\n".data

/-- Environment exercising C10: the staged diff is `c10diff`. -/
def c10env : GitEnv :=
  { sourceExists := true, mkdirRaises := false, inGitRepo := true
    diffCached := c10diff, diffHeadPrev := []
    mergeBaseMainOk := false, diffMergeMain := []
    mergeBaseMasterOk := false, diffMergeMaster := []
    sourceBytes := "src", strictApply := some "patched", threeWayApply := none }

/-- C10: a non-empty, purely textual diff whose text merely contains the
word `binary` in some casing — here inside an added line, with no
`Binary files ... differ` marker present — is routed to the zip-archive
pipeline instead of the text-patch pipeline, because the source's binary
detection is a case-insensitive substring search over the whole diff
text. -/
theorem c10_textual_binary_substring_routes :
    isBlank c10diff = false ∧
    containsSub c10diff binaryDifferLiteral = false ∧
    containsSub c10diff gitBinaryMarker = false ∧
    isBinaryDiff c10diff = true ∧
    sync_sales_twb c10env (some "old") = .ok (.routedTwbx, some "old") := by
  refine ⟨by decide, by decide, by decide, by decide, ?_⟩
  have hb : isBinaryDiff (getDiff c10env) = true := by decide
  have h1 : c10env.sourceExists = true := rfl
  have h2 : c10env.mkdirRaises = false := rfl
  have h3 : c10env.inGitRepo = true := rfl
  simp [sync_sales_twb, h1, h2, h3, hb]

/-- Two walks of the same two-file extracted tree in opposite orders. -/
def c8walk1 : List WalkEntry :=
  [⟨"Sales.twb".data, true, ["doc"]⟩, ⟨"image.png".data, true, ["img"]⟩]

/-- The same tree walked in the other order. -/
def c8walk2 : List WalkEntry :=
  [⟨"image.png".data, true, ["img"]⟩, ⟨"Sales.twb".data, true, ["doc"]⟩]

/-- C8 as stated fails on the code: the rewrap loop iterates `rglob('*')`
without sorting, so two walks enumerating one and the same extracted tree
(equal as a multiset of files) can produce containers whose entries appear
in different orders — the output is not a function of the tree alone. -/
theorem c8_rewrap_order_counterexample :
    c8walk1.Perm c8walk2 ∧ rewrap c8walk1 ≠ rewrap c8walk2 := by decide

/-- C8 amended: rewrap writes exactly the regular files of the walked tree,
each once with its bytes, in the walk's order; two runs over an unchanged
tree produce containers with the same entries (the same multiset of
name-content pairs), but entry order follows the directory walk, which the
code does not sort — byte-stable output needs the walk itself to be
order-stable. -/
theorem c8_rewrap_entries_stable (w1 w2 : List WalkEntry) (h : w1.Perm w2) :
    (rewrap w1).Perm (rewrap w2) ∧
    ∀ e ∈ w1, e.isFile = true → (e.relPath, e.content) ∈ rewrap w1 := by
  constructor
  · exact (h.filter _).map _
  · intro e he hf
    unfold rewrap
    exact List.mem_map_of_mem _ (List.mem_filter.mpr ⟨he, hf⟩)

/-- Witness for the amended C8 at a concrete pair of walks. -/
theorem c8_rewrap_entries_stable_witness :
    (rewrap c8walk1).Perm (rewrap c8walk2) :=
  (c8_rewrap_entries_stable c8walk1 c8walk2 (by decide)).1

/-- C2: the line-set merge equals the destination with every occurrence of
each removed line (in the previous version, gone from the current one)
deleted, followed by each added line (new in the current version) not
already present, appended exactly once at the end — an unordered,
deduplicating set-difference merge; lines in neither set keep their
occurrence count. -/
theorem c2_line_set_merge {α : Type} [DecidableEq α]
    (prev current dest : List α) :
    manual_twb_merge prev current dest
      = dest.filter (fun x => decide (¬(x ∈ prev ∧ x ∉ current)))
        ++ current.dedup.filter
            (fun l => decide (l ∉ prev) && decide (l ∉ dest)) ∧
    (∀ l, l ∈ prev → l ∉ current →
      (manual_twb_merge prev current dest).count l = 0) ∧
    (∀ l, l ∈ current → l ∉ prev → l ∉ dest →
      (manual_twb_merge prev current dest).count l = 1) ∧
    (∀ l, ¬(l ∈ prev ∧ l ∉ current) → ¬(l ∈ current ∧ l ∉ prev) →
      (manual_twb_merge prev current dest).count l = dest.count l) := by
  have heq := manual_twb_merge_eq prev current dest
  refine ⟨heq, ?_, ?_, ?_⟩
  · intro l hp hc
    rw [heq, List.count_append]
    have hz1 : (dest.filter
        (fun x => decide (¬(x ∈ prev ∧ x ∉ current)))).count l = 0 := by
      apply List.count_eq_zero.mpr
      intro hmem
      have hpr := (List.mem_filter.mp hmem).2
      rw [decide_eq_true_eq] at hpr
      exact hpr ⟨hp, hc⟩
    have hz2 : (current.dedup.filter
        (fun x => decide (x ∉ prev) && decide (x ∉ dest))).count l = 0 := by
      apply List.count_eq_zero.mpr
      intro hmem
      have hpr := (List.mem_filter.mp hmem).2
      rw [Bool.and_eq_true, decide_eq_true_eq, decide_eq_true_eq] at hpr
      exact hpr.1 hp
    rw [hz1, hz2]
  · intro l hc hp hd
    rw [heq, List.count_append]
    have hz1 : (dest.filter
        (fun x => decide (¬(x ∈ prev ∧ x ∉ current)))).count l = 0 := by
      apply List.count_eq_zero.mpr
      intro hmem
      exact hd (List.mem_filter.mp hmem).1
    have h1 : (current.dedup.filter
        (fun x => decide (x ∉ prev) && decide (x ∉ dest))).count l = 1 := by
      apply List.count_eq_one_of_mem ((current.nodup_dedup).filter _)
      exact List.mem_filter.mpr
        ⟨List.mem_dedup.mpr hc, by simp [hp, hd]⟩
    rw [hz1, h1]
  · intro l h1 h2
    rw [heq, List.count_append]
    have hc1 : (dest.filter
        (fun x => decide (¬(x ∈ prev ∧ x ∉ current)))).count l
        = dest.count l := by
      rw [List.count_filter]
      simp [h1]
    have hc2 : (current.dedup.filter
        (fun x => decide (x ∉ prev) && decide (x ∉ dest))).count l = 0 := by
      apply List.count_eq_zero.mpr
      intro hmem
      obtain ⟨hmd, hpr⟩ := List.mem_filter.mp hmem
      rw [Bool.and_eq_true, decide_eq_true_eq, decide_eq_true_eq] at hpr
      exact h2 ⟨List.mem_dedup.mp hmd, hpr.1⟩
    rw [hc1, hc2, Nat.add_zero]

/-- Witness for C2 on concrete line lists: previous `[1, 2]`, current
`[1, 3]`, destination `[1, 2, 2, 4]` — the removed line 2 vanishes
entirely, the added line 3 is appended once, and the untouched line 4
keeps its count. -/
theorem c2_line_set_merge_witness :
    (manual_twb_merge ([1, 2] : List Nat) [1, 3] [1, 2, 2, 4]).count 2 = 0 ∧
    (manual_twb_merge ([1, 2] : List Nat) [1, 3] [1, 2, 2, 4]).count 3 = 1 ∧
    (manual_twb_merge ([1, 2] : List Nat) [1, 3] [1, 2, 2, 4]).count 4
      = ([1, 2, 2, 4] : List Nat).count 4 :=
  ⟨(c2_line_set_merge [1, 2] [1, 3] [1, 2, 2, 4]).2.1 2 (by decide) (by decide),
   (c2_line_set_merge [1, 2] [1, 3] [1, 2, 2, 4]).2.2.1 3 (by decide)
     (by decide) (by decide),
   (c2_line_set_merge [1, 2] [1, 3] [1, 2, 2, 4]).2.2.2 4 (by decide)
     (by decide)⟩

/-- C7: when the three-way apply of the document diff fails, the run still
returns 0; a failing line-set merge overwrites the destination document
with the current source document under the distinct `fallbackCopied`
status, and a successful one reports `manualMerged` — neither status equals
the clean-apply status `appliedDiff`, so the degraded outcomes are never
reported as a clean patch application. -/
theorem c7_degraded_overwrite (env : TwbxEnv) (d pt : ArcTree) (s e pe : Entry)
    (hz : env.sourceZipOk = true) (hs : findTwb env.sourceTree = some s)
    (hdz : env.destZipOk = true) (hde : findTwb d = some e)
    (hp : env.prevTree = some pt) (hpe : findTwb pt = some pe)
    (hdiff : pe.content ≠ s.content)
    (hfail : env.gitApply3 pe.content s.content e.content = none) :
    (apply_twbx_changes env (some d)).code = 0 ∧
    (env.mergeRaises = true →
      apply_twbx_changes env (some d)
        = ⟨0, [.fallbackCopied, .appliedTwbx],
            some (updateTree d e.path s.content)⟩) ∧
    (env.mergeRaises = false →
      apply_twbx_changes env (some d)
        = ⟨0, [.manualMerged, .appliedTwbx],
            some (updateTree d e.path
              (manual_twb_merge pe.content s.content e.content))⟩) ∧
    TwbStatus.fallbackCopied ≠ TwbStatus.appliedDiff ∧
    TwbStatus.manualMerged ≠ TwbStatus.appliedDiff := by
  have hbind : env.prevTree.bind findTwb = some pe := by
    rw [hp]
    exact hpe
  have hmain : apply_twbx_changes env (some d)
      = twbxCore env s d e.path e.content := by
    simp [apply_twbx_changes, hz, hs, hdz, hde]
  have hcore : twbxCore env s d e.path e.content
      = ⟨0, [(apply_twb_diff env pe.content s.content e.content).2,
            .appliedTwbx],
          some (updateTree d e.path
            (apply_twb_diff env pe.content s.content e.content).1)⟩ := by
    unfold twbxCore
    rw [hbind]
    dsimp only
    rw [if_pos hdiff]
  refine ⟨?_, ?_, ?_, by decide, by decide⟩
  · rw [hmain, hcore]
  · intro hmr
    rw [hmain, hcore]
    simp [apply_twb_diff, hfail, hmr]
  · intro hmr
    rw [hmain, hcore]
    simp [apply_twb_diff, hfail, hmr]

/-- Source tree exercising C7. -/
def c7src : ArcTree := [⟨"Sales.twb".data, ["line1"]⟩]

/-- Destination tree exercising C7. -/
def c7dest : ArcTree := [⟨"Sales.twb".data, ["old1"]⟩]

/-- Previous-revision tree exercising C7. -/
def c7prev : ArcTree := [⟨"Sales.twb".data, ["line0"]⟩]

/-- Environment exercising C7: three-way apply fails and the merge
raises. -/
def c7env : TwbxEnv :=
  { sourceZipOk := true, sourceTree := c7src, destZipOk := true
    prevTree := some c7prev, gitApply3 := fun _ _ _ => none
    mergeRaises := true }

/-- Witness for C7 at a concrete environment. -/
theorem c7_degraded_overwrite_witness :
    apply_twbx_changes c7env (some c7dest)
      = ⟨0, [.fallbackCopied, .appliedTwbx],
          some (updateTree c7dest "Sales.twb".data ["line1"])⟩ :=
  (c7_degraded_overwrite c7env c7dest c7prev ⟨"Sales.twb".data, ["line1"]⟩
    ⟨"Sales.twb".data, ["old1"]⟩ ⟨"Sales.twb".data, ["line0"]⟩
    rfl (by decide) rfl (by decide) rfl (by decide) (by decide) rfl).2.1 rfl

/-- C5: when the destination does not exist and a change was detected, the
text variant writes the destination as a byte copy of the source, and the
archive variant copies the whole extracted source tree as the initial
destination tree; after the diff/patch core runs on that copy, the
repacked container's payload document still equals the source payload
(granted that a successful three-way apply of the previous-to-current
patch onto a document equal to the current version leaves it
unchanged). -/
theorem c5_missing_dest_initial_copy (tenv : GitEnv) (env : TwbxEnv)
    (s : Entry)
    (h1 : tenv.sourceExists = true) (h2 : tenv.mkdirRaises = false)
    (h3 : tenv.inGitRepo = true)
    (h4 : isBinaryDiff (getDiff tenv) = false)
    (h5 : (getDiff tenv).isEmpty = false)
    (h6 : env.sourceZipOk = true)
    (h7 : findTwb env.sourceTree = some s)
    (h8 : ∀ p c, env.gitApply3 p c c = none ∨ env.gitApply3 p c c = some c) :
    sync_sales_twb tenv none = .ok (.created, some tenv.sourceBytes) ∧
    (apply_twbx_changes env none).code = 0 ∧
    ((apply_twbx_changes env none).dest = some env.sourceTree ∨
      (apply_twbx_changes env none).dest
        = some (updateTree env.sourceTree s.path s.content)) ∧
    ∃ t, (apply_twbx_changes env none).dest = some t ∧ findTwb t = some s := by
  have htext : sync_sales_twb tenv none = .ok (.created, some tenv.sourceBytes) := by
    simp [sync_sales_twb, h1, h2, h3, h4, h5]
  have hmain : apply_twbx_changes env none
      = twbxCore env s env.sourceTree s.path s.content := by
    simp [apply_twbx_changes, h6, h7]
  have hcc := twbxCore_on_current env s env.sourceTree h8
  rw [hmain]
  refine ⟨htext, hcc.1, hcc.2, ?_⟩
  rcases hcc.2 with hd | hd
  · exact ⟨env.sourceTree, hd, h7⟩
  · exact ⟨updateTree env.sourceTree s.path s.content, hd,
      findTwb_updateTree _ _ h7⟩

/-- Text-variant environment exercising C5: textual diff, destination
missing. -/
def c5tenv : GitEnv :=
  { sourceExists := true, mkdirRaises := false, inGitRepo := true
    diffCached := "+added line\n".data, diffHeadPrev := []
    mergeBaseMainOk := false, diffMergeMain := []
    mergeBaseMasterOk := false, diffMergeMaster := []
    sourceBytes := "payload", strictApply := none, threeWayApply := none }

/-- Archive-variant environment exercising C5: two-member source tree, no
previous version recoverable. -/
def c5aenv : TwbxEnv :=
  { sourceZipOk := true
    sourceTree := [⟨"Sales.twb".data, ["doc"]⟩, ⟨"image.png".data, ["img"]⟩]
    destZipOk := true, prevTree := none
    gitApply3 := fun _ _ _ => none, mergeRaises := false }

/-- Witness for C5 at concrete environments. -/
theorem c5_missing_dest_initial_copy_witness :
    sync_sales_twb c5tenv none = .ok (.created, some "payload") ∧
    (apply_twbx_changes c5aenv none).code = 0 :=
  ⟨(c5_missing_dest_initial_copy c5tenv c5aenv ⟨"Sales.twb".data, ["doc"]⟩
      rfl rfl rfl (by decide) (by decide) rfl (by decide)
      (fun _ _ => Or.inl rfl)).1,
   (c5_missing_dest_initial_copy c5tenv c5aenv ⟨"Sales.twb".data, ["doc"]⟩
      rfl rfl rfl (by decide) (by decide) rfl (by decide)
      (fun _ _ => Or.inl rfl)).2.1⟩
